import Mathlib

/-!
Shallow embedding of the event-counter library (src/lib/counter.js).

The counter stores per-second event counts in a circular buffer backed by a
Uint32Array.  We model the buffer as a `List Nat` whose entries are meant to be
below `2 ^ 32`, wall-clock seconds as `Nat`, and the elapsed difference
`now - lastUpdatedAt` as an `Int` (JavaScript subtraction of two timestamps).
Fallible construction returns an `Option`.
-/

/-- Modulus of a JavaScript Uint32Array cell: stores wrap modulo `2 ^ 32`. -/
def UINT32_MOD : Nat := 2 ^ 32

/-- Number.MAX_SAFE_INTEGER, the ceiling checked by getCount. -/
def MAX_SAFE_INTEGER : Nat := 2 ^ 53 - 1

/-- State of a counter instance: `maxDuration` (buffer length in seconds),
`data` (the Uint32Array of per-second buckets) and `lastUpdatedAt` (the
wall-clock second of the last access). -/
structure Counter where
  maxDuration : Nat
  data : List Nat
  lastUpdatedAt : Nat
deriving DecidableEq, Repr

/-- Helper for `fillZero`: walks the list keeping a running index `k`, zeroing
the entries whose index lies in `[start, stop)`. -/
def fillZeroFrom (start stop : Nat) : Nat → List Nat → List Nat
  | _, [] => []
  | k, v :: rest =>
    (if start ≤ k ∧ k < stop then 0 else v) :: fillZeroFrom start stop (k + 1) rest

/-- Models JavaScript data.fill(0, start, stop) on the bucket array (zero the
half-open index range `[start, stop)`, leaving the rest unchanged). -/
def fillZero (l : List Nat) (start stop : Nat) : List Nat :=
  fillZeroFrom start stop 0 l

/-- Embedding of Counter.prototype._getIndex, parameterised by the single clock
snapshot `now` (Counter.now() in the source).  Returns the updated state and
the bucket index for `now`. -/
def getIndexStep (c : Counter) (now : Nat) : Counter × Nat :=
  let maxDuration := c.maxDuration
  let lastUpdatedAt := c.lastUpdatedAt
  let index := now % maxDuration
  let elapsed : Int := (now : Int) - (lastUpdatedAt : Int)
  let data :=
    if elapsed = 1 then
      c.data.set index 0
    else if (maxDuration : Int) ≤ elapsed then
      List.replicate c.data.length 0
    else if 1 < elapsed then
      let start := (lastUpdatedAt + 1) % maxDuration
      let stop := (now + 1) % maxDuration
      if start < stop then
        fillZero c.data start stop
      else
        fillZero (fillZero c.data start maxDuration) 0 stop
    else
      c.data
  (⟨maxDuration, data, now⟩, index)

/-- Embedding of Counter.prototype.increment: advance the buffer, bump the
current bucket modulo `2 ^ 32`, and on wrap-around to 0 restore the previous
value and report failure. -/
def increment (c : Counter) (now : Nat) : Counter × Bool :=
  let r := getIndexStep c now
  let c1 := r.1
  let index := r.2
  let lastCount := c1.data.getD index 0
  let bumped := (lastCount + 1) % UINT32_MOD
  if bumped = 0 then
    (⟨c1.maxDuration, (c1.data.set index bumped).set index lastCount, c1.lastUpdatedAt⟩, false)
  else
    (⟨c1.maxDuration, c1.data.set index bumped, c1.lastUpdatedAt⟩, true)

/-- The duration-clamping performed at the top of getCount: an absent or
not-a-number argument (modelled as `none`) becomes `maxDuration`, larger values
clamp to `maxDuration`, values below 1 clamp to 1. -/
def clampDuration (maxDuration : Nat) (duration : Option Int) : Int :=
  match duration with
  | none => (maxDuration : Int)
  | some d =>
    if (maxDuration : Int) < d then (maxDuration : Int)
    else if d < 1 then 1
    else d

/-- The summation loop of getCount: for i = duration-1 down to 0 it adds
data[idx] where idx is index - i, wrapped by adding maxDuration when
negative. -/
def getCountLoop (data : List Nat) (maxDuration index : Nat) : Nat → Nat
  | 0 => 0
  | i + 1 =>
    let idx := if index < i then index + maxDuration - i else index - i
    getCountLoop data maxDuration index i + data.getD idx 0

/-- Embedding of Counter.prototype.getCount: advance the buffer, clamp the
duration, sum the window, and return -1 instead when the sum exceeds
Number.MAX_SAFE_INTEGER. -/
def getCount (c : Counter) (now : Nat) (duration : Option Int) : Counter × Int :=
  let r := getIndexStep c now
  let c1 := r.1
  let index := r.2
  let d := clampDuration c1.maxDuration duration
  let count := getCountLoop c1.data c1.maxDuration index d.toNat
  if count ≤ MAX_SAFE_INTEGER then (c1, (count : Int)) else (c1, -1)

/-- Truncation toward zero of a rational: the ToIntegerOrInfinity conversion
ECMAScript applies to a finite length argument before range-checking it. -/
def toIntegerTrunc (n : ℚ) : Int :=
  if 0 ≤ n then Int.floor n else Int.ceil n

/-- Models the JavaScript expression new Uint32Array(n) for a finite number n:
ToIndex first truncates n toward zero, then throws a RangeError exactly when
the truncated value is negative or exceeds 2^53 - 1 (so 2.5 yields a length-2
array and -0.5 a length-0 array without throwing); on success it allocates
that many zero-filled 32-bit cells. -/
def uint32ArrayNew (n : ℚ) : Option (List Nat) :=
  let len := toIntegerTrunc n
  if 0 ≤ len ∧ len ≤ ((MAX_SAFE_INTEGER : Nat) : Int) then
    some (List.replicate len.toNat 0)
  else none

/-- Embedding of the Counter constructor: an absent argument defaults to 60;
the only validation is the Uint32Array allocation itself.  `now` is the
Counter.now() reading taken at construction.  The source stores the raw
argument in the maxDuration field while the buffer length is its ToIndex
truncation; the two coincide for every integer argument, and this model
records the allocated buffer length. -/
def counterNew (maxDuration : Option ℚ) (now : Nat) : Option Counter :=
  let m := maxDuration.getD 60
  (uint32ArrayNew m).map fun data => ⟨data.length, data, now⟩

/-- Embedding of the static Counter.create factory, which simply forwards to
the constructor. -/
def create (maxDuration : Option ℚ) (now : Nat) : Option Counter :=
  counterNew maxDuration now

/-- Circular half-open index range used by the specification to describe the
catch-up zeroing: `[start, stop)` when it does not wrap, otherwise the two
segments `[start, maxDuration)` and `[0, stop)`. -/
def inCircRange (start stop maxDuration i : Nat) : Prop :=
  if start < stop then start ≤ i ∧ i < stop
  else (start ≤ i ∧ i < maxDuration) ∨ i < stop

instance (start stop maxDuration i : Nat) :
    Decidable (inCircRange start stop maxDuration i) :=
  if h : start < stop then
    decidable_of_iff (start ≤ i ∧ i < stop) (by simp [inCircRange, h])
  else
    decidable_of_iff ((start ≤ i ∧ i < maxDuration) ∨ i < stop) (by simp [inCircRange, h])

/-- Window sum as the specification words it: the sum of buckets[idx] over the
d most recent circular indices index, index-1, ..., index-d+1, each wrapped
modulo maxDuration. -/
def specWindowSum (data : List Nat) (maxDuration index d : Nat) : Nat :=
  ∑ i ∈ Finset.range d, data.getD (((index : Int) - (i : Int)) % (maxDuration : Int)).toNat 0

/-! ## List helper lemmas -/

theorem fillZeroFrom_length (start stop : Nat) :
    ∀ (l : List Nat) (k : Nat), (fillZeroFrom start stop k l).length = l.length := by
  intro l
  induction l with
  | nil => intro k; rfl
  | cons v rest ih => intro k; simp [fillZeroFrom, ih]

theorem fillZero_length (l : List Nat) (start stop : Nat) :
    (fillZero l start stop).length = l.length :=
  fillZeroFrom_length start stop l 0

theorem fillZeroFrom_getD (start stop : Nat) :
    ∀ (l : List Nat) (k i : Nat),
      (fillZeroFrom start stop k l).getD i 0 =
        if start ≤ k + i ∧ k + i < stop ∧ i < l.length then 0 else l.getD i 0 := by
  intro l
  induction l with
  | nil => intro k i; simp [fillZeroFrom]
  | cons v rest ih =>
    intro k i
    cases i with
    | zero =>
      simp only [fillZeroFrom, Nat.add_zero, List.getD_cons_zero, List.length_cons]
      by_cases h1 : start ≤ k ∧ k < stop
      · simp [h1.1, h1.2]
      · have h2 : ¬(start ≤ k ∧ k < stop ∧ 0 < rest.length + 1) := fun h => h1 ⟨h.1, h.2.1⟩
        rw [if_neg h1, if_neg h2]
    | succ j =>
      simp only [fillZeroFrom, List.getD_cons_succ, List.length_cons]
      rw [ih (k + 1) j]
      have hcond : (start ≤ k + 1 + j ∧ k + 1 + j < stop ∧ j < rest.length) ↔
          (start ≤ k + (j + 1) ∧ k + (j + 1) < stop ∧ j + 1 < rest.length + 1) := by omega
      by_cases h1 : start ≤ k + 1 + j ∧ k + 1 + j < stop ∧ j < rest.length
      · rw [if_pos h1, if_pos (hcond.mp h1)]
      · rw [if_neg h1, if_neg (fun h2 => h1 (hcond.mpr h2))]

theorem fillZero_getD (l : List Nat) (start stop i : Nat) :
    (fillZero l start stop).getD i 0 =
      if start ≤ i ∧ i < stop ∧ i < l.length then 0 else l.getD i 0 := by
  have h := fillZeroFrom_getD start stop l 0 i
  simpa [fillZero] using h

theorem getD_set (l : List Nat) (j v i : Nat) :
    (l.set j v).getD i 0 = if i = j ∧ j < l.length then v else l.getD i 0 := by
  induction l generalizing i j with
  | nil => simp
  | cons a rest ih =>
    cases j with
    | zero =>
      cases i with
      | zero => simp
      | succ i2 => simp
    | succ j2 =>
      cases i with
      | zero => simp
      | succ i2 =>
        simp only [List.set_cons_succ, List.getD_cons_succ, List.length_cons]
        rw [ih j2 i2]
        have hcond : (i2 = j2 ∧ j2 < rest.length) ↔
            (i2 + 1 = j2 + 1 ∧ j2 + 1 < rest.length + 1) := by omega
        by_cases h1 : i2 = j2 ∧ j2 < rest.length
        · rw [if_pos h1, if_pos (hcond.mp h1)]
        · rw [if_neg h1, if_neg (fun h2 => h1 (hcond.mpr h2))]

theorem getD_replicate_zero (n i : Nat) : (List.replicate n (0 : Nat)).getD i 0 = 0 := by
  induction n generalizing i with
  | zero => simp
  | succ m ih =>
    cases i with
    | zero => simp [List.replicate]
    | succ i2 => simp [List.replicate, ih i2]

theorem set_getD_self (l : List Nat) (i : Nat) (h : i < l.length) :
    l.set i (l.getD i 0) = l := by
  induction l generalizing i with
  | nil => simp at h
  | cons a rest ih =>
    cases i with
    | zero => simp
    | succ i2 =>
      simp only [List.getD_cons_succ, List.set_cons_succ, List.cons.injEq, true_and]
      exact ih i2 (by simpa using h)

/-! ## Characterisation of the buffer-advance step -/

theorem getIndexStep_maxDuration (c : Counter) (now : Nat) :
    (getIndexStep c now).1.maxDuration = c.maxDuration := rfl

theorem getIndexStep_lastUpdatedAt (c : Counter) (now : Nat) :
    (getIndexStep c now).1.lastUpdatedAt = now := rfl

theorem getIndexStep_index (c : Counter) (now : Nat) :
    (getIndexStep c now).2 = now % c.maxDuration := rfl

theorem getIndexStep_length (c : Counter) (now : Nat) :
    (getIndexStep c now).1.data.length = c.data.length := by
  simp only [getIndexStep]
  split_ifs <;> simp [fillZero_length]

theorem getIndexStep_getD_cases (c : Counter) (now : Nat) (i : Nat) :
    (getIndexStep c now).1.data.getD i 0 = 0 ∨
    (getIndexStep c now).1.data.getD i 0 = c.data.getD i 0 := by
  simp only [getIndexStep]
  split_ifs with h1 h2 h3 h4
  · rw [getD_set]; split_ifs <;> simp
  · rw [getD_replicate_zero]; left; rfl
  · rw [fillZero_getD]; split_ifs <;> simp
  · rw [fillZero_getD, fillZero_length, fillZero_getD]; split_ifs <;> simp
  · right; rfl

theorem getIndexStep_getD (c : Counter) (now : Nat)
    (hm : 0 < c.maxDuration) (hlen : c.data.length = c.maxDuration)
    (hmono : c.lastUpdatedAt ≤ now) (i : Nat) (hi : i < c.maxDuration) :
    (getIndexStep c now).1.data.getD i 0 =
      if now - c.lastUpdatedAt = 0 then c.data.getD i 0
      else if now - c.lastUpdatedAt = 1 then
        (if i = now % c.maxDuration then 0 else c.data.getD i 0)
      else if c.maxDuration ≤ now - c.lastUpdatedAt then 0
      else if inCircRange ((c.lastUpdatedAt + 1) % c.maxDuration)
          ((now + 1) % c.maxDuration) c.maxDuration i then 0
      else c.data.getD i 0 := by
  have hilen : i < c.data.length := by omega
  simp only [getIndexStep]
  by_cases h1 : (now : Int) - (c.lastUpdatedAt : Int) = 1
  · have hed0 : ¬(now - c.lastUpdatedAt = 0) := by omega
    have hed1 : now - c.lastUpdatedAt = 1 := by omega
    rw [if_pos h1, if_neg hed0, if_pos hed1, getD_set]
    have hidx : now % c.maxDuration < c.data.length := by
      rw [hlen]; exact Nat.mod_lt _ hm
    by_cases hie : i = now % c.maxDuration
    · rw [if_pos ⟨hie, hidx⟩, if_pos hie]
    · rw [if_neg (fun h => hie h.1), if_neg hie]
  · by_cases h2 : (c.maxDuration : Int) ≤ (now : Int) - (c.lastUpdatedAt : Int)
    · have hed0 : ¬(now - c.lastUpdatedAt = 0) := by omega
      have hed1 : ¬(now - c.lastUpdatedAt = 1) := by omega
      have hedm : c.maxDuration ≤ now - c.lastUpdatedAt := by omega
      rw [if_neg h1, if_pos h2, if_neg hed0, if_neg hed1, if_pos hedm, getD_replicate_zero]
    · by_cases h3 : (1 : Int) < (now : Int) - (c.lastUpdatedAt : Int)
      · have hed0 : ¬(now - c.lastUpdatedAt = 0) := by omega
        have hed1 : ¬(now - c.lastUpdatedAt = 1) := by omega
        have hedm : ¬(c.maxDuration ≤ now - c.lastUpdatedAt) := by omega
        rw [if_neg h1, if_neg h2, if_pos h3, if_neg hed0, if_neg hed1, if_neg hedm]
        by_cases h4 : (c.lastUpdatedAt + 1) % c.maxDuration < (now + 1) % c.maxDuration
        · rw [if_pos h4, fillZero_getD]
          by_cases h5 : inCircRange ((c.lastUpdatedAt + 1) % c.maxDuration)
              ((now + 1) % c.maxDuration) c.maxDuration i
          · have h5a : (c.lastUpdatedAt + 1) % c.maxDuration ≤ i ∧
                i < (now + 1) % c.maxDuration := by
              simpa [inCircRange, h4] using h5
            rw [if_pos ⟨h5a.1, h5a.2, hilen⟩, if_pos h5]
          · have h5a : ¬((c.lastUpdatedAt + 1) % c.maxDuration ≤ i ∧
                i < (now + 1) % c.maxDuration) := by
              simpa [inCircRange, h4] using h5
            rw [if_neg (fun h => h5a ⟨h.1, h.2.1⟩), if_neg h5]
        · rw [if_neg h4, fillZero_getD, fillZero_length, fillZero_getD]
          by_cases h5 : inCircRange ((c.lastUpdatedAt + 1) % c.maxDuration)
              ((now + 1) % c.maxDuration) c.maxDuration i
          · have h5a : ((c.lastUpdatedAt + 1) % c.maxDuration ≤ i ∧ i < c.maxDuration) ∨
                i < (now + 1) % c.maxDuration := by
              simpa [inCircRange, h4] using h5
            rcases h5a with h5b | h5b
            · by_cases h6 : i < (now + 1) % c.maxDuration
              · rw [if_pos ⟨Nat.zero_le i, h6, hilen⟩, if_pos h5]
              · rw [if_neg (fun h => h6 h.2.1), if_pos ⟨h5b.1, h5b.2, hilen⟩, if_pos h5]
            · rw [if_pos ⟨Nat.zero_le i, h5b, hilen⟩, if_pos h5]
          · have h5a : ¬(((c.lastUpdatedAt + 1) % c.maxDuration ≤ i ∧ i < c.maxDuration) ∨
                i < (now + 1) % c.maxDuration) := by
              simpa [inCircRange, h4] using h5
            rw [if_neg (fun h => h5a (Or.inr h.2.1)),
              if_neg (fun h => h5a (Or.inl ⟨h.1, h.2.1⟩)), if_neg h5]
      · have hed0 : now - c.lastUpdatedAt = 0 := by omega
        rw [if_neg h1, if_neg h2, if_neg h3, if_pos hed0]

/-! ## Operation-level helper lemmas -/

theorem increment_lastUpdatedAt (c : Counter) (now : Nat) :
    (increment c now).1.lastUpdatedAt = now := by
  simp only [increment]
  split_ifs <;> rfl

theorem getCount_lastUpdatedAt (c : Counter) (now : Nat) (d : Option Int) :
    (getCount c now d).1.lastUpdatedAt = now := by
  simp only [getCount]
  split_ifs <;> rfl

theorem clampDuration_bounds (m : Nat) (hm : 0 < m) (d : Option Int) :
    1 ≤ clampDuration m d ∧ clampDuration m d ≤ (m : Int) := by
  cases d with
  | none => simp only [clampDuration]; omega
  | some v => simp only [clampDuration]; split_ifs <;> omega

theorem clampDuration_eq_self (m : Nat) (d : Int) (h1 : 1 ≤ d) (h2 : d ≤ (m : Int)) :
    clampDuration m (some d) = d := by
  simp only [clampDuration]
  split_ifs <;> omega

theorem emod_toNat_window (index i m : Nat) (hidx : index < m) (hi : i < m) :
    (((index : Int) - (i : Int)) % (m : Int)).toNat =
      if index < i then index + m - i else index - i := by
  by_cases h : index < i
  · rw [if_pos h]
    have hrw : ((index : Int) - (i : Int) + (m : Int) * 1) % (m : Int) =
        ((index : Int) - (i : Int)) % (m : Int) := Int.add_mul_emod_self_left _ _ _
    have hval : ((index : Int) - (i : Int) + (m : Int) * 1) % (m : Int) =
        (index : Int) - (i : Int) + (m : Int) * 1 :=
      Int.emod_eq_of_lt (by omega) (by omega)
    rw [← hrw, hval]
    omega
  · rw [if_neg h]
    have hval : ((index : Int) - (i : Int)) % (m : Int) = (index : Int) - (i : Int) :=
      Int.emod_eq_of_lt (by omega) (by omega)
    rw [hval]
    omega

theorem getCountLoop_eq_specWindowSum (data : List Nat) (m index : Nat) (hidx : index < m) :
    ∀ d, d ≤ m → getCountLoop data m index d = specWindowSum data m index d := by
  intro d
  induction d with
  | zero => intro _; simp [getCountLoop, specWindowSum]
  | succ i ih =>
    intro hle
    have hi : i < m := by omega
    simp only [getCountLoop]
    rw [ih (by omega)]
    unfold specWindowSum
    rw [Finset.sum_range_succ]
    congr 1
    rw [emod_toNat_window index i m hidx hi]

theorem getCountLoop_le (data : List Nat) (m index : Nat)
    (hwf : ∀ i, i < data.length → data.getD i 0 < UINT32_MOD) :
    ∀ d, getCountLoop data m index d ≤ d * (UINT32_MOD - 1) := by
  intro d
  induction d with
  | zero => simp [getCountLoop]
  | succ i ih =>
    simp only [getCountLoop]
    have hterm : data.getD (if index < i then index + m - i else index - i) 0 ≤
        UINT32_MOD - 1 := by
      by_cases hj : (if index < i then index + m - i else index - i) < data.length
      · have := hwf _ hj
        omega
      · rw [List.getD_eq_default _ _ (le_of_not_lt hj)]
        exact Nat.zero_le _
    rw [Nat.succ_mul]
    omega

theorem getCountLoop_mono (data : List Nat) (m index : Nat) :
    ∀ d1 d2, d1 ≤ d2 → getCountLoop data m index d1 ≤ getCountLoop data m index d2 := by
  intro d1 d2 h
  induction d2 with
  | zero =>
    have hd : d1 = 0 := by omega
    subst hd
    exact le_refl _
  | succ i ih =>
    by_cases he : d1 = i + 1
    · subst he
      exact le_refl _
    · have h2 : d1 ≤ i := by omega
      calc getCountLoop data m index d1 ≤ getCountLoop data m index i := ih h2
        _ ≤ getCountLoop data m index (i + 1) := by
          simp only [getCountLoop]
          exact Nat.le_add_right _ _

theorem getCount_clamp_congr (c : Counter) (now : Nat) (d1 d2 : Option Int)
    (h : clampDuration c.maxDuration d1 = clampDuration c.maxDuration d2) :
    getCount c now d1 = getCount c now d2 := by
  simp only [getCount, getIndexStep_maxDuration]
  rw [h]

/-! ## Claim theorems -/

/-- Claim C1: for every counter state with a positive maxDuration and a
non-regressing clock, the buffer-advance step returns now mod maxDuration and
zeroes exactly the buckets dictated by the elapsed-time policy: none when
elapsed = 0, only the reused bucket when elapsed = 1, all of them when
elapsed >= maxDuration, and exactly the circular half-open range
[(lastUpdatedAt+1) mod maxDuration, (now+1) mod maxDuration) otherwise, all
other buckets being left unchanged. -/
theorem C1_getIndexStep_zeroing (c : Counter) (now : Nat)
    (hm : 0 < c.maxDuration) (hlen : c.data.length = c.maxDuration)
    (hmono : c.lastUpdatedAt ≤ now) :
    (getIndexStep c now).2 = now % c.maxDuration ∧
    (getIndexStep c now).1.data.length = c.maxDuration ∧
    ∀ i : Nat, i < c.maxDuration →
      (getIndexStep c now).1.data.getD i 0 =
        if now - c.lastUpdatedAt = 0 then c.data.getD i 0
        else if now - c.lastUpdatedAt = 1 then
          (if i = now % c.maxDuration then 0 else c.data.getD i 0)
        else if c.maxDuration ≤ now - c.lastUpdatedAt then 0
        else if inCircRange ((c.lastUpdatedAt + 1) % c.maxDuration)
            ((now + 1) % c.maxDuration) c.maxDuration i then 0
        else c.data.getD i 0 :=
  ⟨getIndexStep_index c now, by rw [getIndexStep_length, hlen],
    fun i hi => getIndexStep_getD c now hm hlen hmono i hi⟩

/-- Witness for C1 at maxDuration 4, buckets [5,6,7,8], lastUpdatedAt 10 and
now 12 (elapsed 2, wrapping range {3, 0}): bucket 3 is zeroed, bucket 1 is
untouched, and the returned index is 0. -/
theorem C1_getIndexStep_zeroing_witness :
    (getIndexStep ⟨4, [5, 6, 7, 8], 10⟩ 12).2 = 0 ∧
    (getIndexStep ⟨4, [5, 6, 7, 8], 10⟩ 12).1.data.getD 3 0 = 0 ∧
    (getIndexStep ⟨4, [5, 6, 7, 8], 10⟩ 12).1.data.getD 1 0 = 6 := by
  have h := C1_getIndexStep_zeroing ⟨4, [5, 6, 7, 8], 10⟩ 12 (by decide) (by decide) (by decide)
  refine ⟨?_, ?_, ?_⟩
  · rw [h.1]
    decide
  · rw [h.2.2 3 (by decide)]
    decide
  · rw [h.2.2 1 (by decide)]
    decide

/-- Counterexample to claim C2: maxDuration = 0 is not a positive integer,
yet construction succeeds and produces an instance (with an empty buffer)
rather than failing fast. -/
theorem C2_create_zero_counterexample :
    ¬(0 < (0 : ℚ)) ∧ create (some 0) 7 = some ⟨0, [], 7⟩ := by
  constructor
  · exact lt_irrefl 0
  · rfl

theorem toIntegerTrunc_neg_iff (q : ℚ) : toIntegerTrunc q < 0 ↔ q ≤ -1 := by
  unfold toIntegerTrunc
  by_cases h : 0 ≤ q
  · rw [if_pos h]
    constructor
    · intro hf
      exfalso
      have h2 : (0 : Int) ≤ Int.floor q := Int.floor_nonneg.mpr h
      omega
    · intro hq
      exfalso
      linarith
  · rw [if_neg h]
    constructor
    · intro hc
      have h2 : Int.ceil q ≤ -1 := by omega
      have h3 : q ≤ ((-1 : Int) : ℚ) := Int.ceil_le.mp h2
      exact_mod_cast h3
    · intro hq
      have h2 : Int.ceil q ≤ -1 := Int.ceil_le.mpr (by exact_mod_cast hq)
      omega

theorem toIntegerTrunc_big_iff (q : ℚ) :
    ((MAX_SAFE_INTEGER : Nat) : Int) < toIntegerTrunc q ↔ (2 ^ 53 : ℚ) ≤ q := by
  have hM : ((MAX_SAFE_INTEGER : Nat) : Int) = 9007199254740991 := by
    norm_num [MAX_SAFE_INTEGER]
  have hQ : (2 ^ 53 : ℚ) = 9007199254740992 := by norm_num
  unfold toIntegerTrunc
  rw [hM, hQ]
  by_cases h : 0 ≤ q
  · rw [if_pos h]
    constructor
    · intro hf
      have h2 : (9007199254740992 : Int) ≤ Int.floor q := by omega
      have h3 : ((9007199254740992 : Int) : ℚ) ≤ q := Int.le_floor.mp h2
      exact_mod_cast h3
    · intro hq
      have h2 : (9007199254740992 : Int) ≤ Int.floor q :=
        Int.le_floor.mpr (by exact_mod_cast hq)
      omega
  · rw [if_neg h]
    constructor
    · intro hc
      exfalso
      have h2 : Int.ceil q ≤ 0 :=
        Int.ceil_le.mpr (by exact_mod_cast le_of_lt (not_le.mp h))
      omega
    · intro hq
      exfalso
      have h2 : (0 : ℚ) < 9007199254740992 := by norm_num
      have h3 : q < 0 := not_le.mp h
      linarith

/-- Amended claim C2: construction fails fast exactly when the ToIndex
conversion of maxDuration rejects it, that is when maxDuration truncated
toward zero is negative (maxDuration <= -1) or exceeds 2^53 - 1
(maxDuration >= 2^53); every other argument — including 0 and fractional
values, none of which are positive integers — is accepted and produces an
instance. -/
theorem C2_create_validation (q : ℚ) (now : Nat) :
    create (some q) now = none ↔ (q ≤ -1 ∨ (2 ^ 53 : ℚ) ≤ q) := by
  unfold create counterNew uint32ArrayNew
  simp only [Option.getD_some]
  by_cases h : 0 ≤ toIntegerTrunc q ∧ toIntegerTrunc q ≤ ((MAX_SAFE_INTEGER : Nat) : Int)
  · rw [if_pos h]
    simp only [Option.map_some']
    constructor
    · intro hc
      exact absurd hc (by simp)
    · intro hc
      exfalso
      rcases hc with hc | hc
      · have h2 : toIntegerTrunc q < 0 := (toIntegerTrunc_neg_iff q).mpr hc
        omega
      · have h2 : ((MAX_SAFE_INTEGER : Nat) : Int) < toIntegerTrunc q :=
          (toIntegerTrunc_big_iff q).mpr hc
        omega
  · rw [if_neg h]
    simp only [Option.map_none']
    constructor
    · intro _
      by_contra hcon
      push_neg at hcon
      apply h
      constructor
      · have h2 : ¬(toIntegerTrunc q < 0) :=
          fun hh => absurd ((toIntegerTrunc_neg_iff q).mp hh) (not_le.mpr (by linarith [hcon.1]))
        omega
      · have h2 : ¬(((MAX_SAFE_INTEGER : Nat) : Int) < toIntegerTrunc q) :=
          fun hh => absurd ((toIntegerTrunc_big_iff q).mp hh) (not_le.mpr (by linarith [hcon.2]))
        omega
    · intro _
      trivial

/-- Counterexample to claim C3: with lastUpdatedAt = 5 and a regressed clock
reading now = 3, increment leaves lastUpdatedAt = 3, strictly below its
previous value — the implementation does not clamp. -/
theorem C3_lastUpdatedAt_decreases_counterexample :
    (increment ⟨4, [5, 6, 7, 8], 10⟩ 8).1.lastUpdatedAt <
      (Counter.mk 4 [5, 6, 7, 8] 10).lastUpdatedAt := by
  decide

/-- Amended claim C3: lastUpdatedAt is set to the clock reading now by every
operation, so it never decreases provided the clock never regresses
(now >= lastUpdatedAt); on a regressed reading the code stores the smaller
now instead of clamping. -/
theorem C3_lastUpdatedAt_monotone (c : Counter) (now : Nat) (d : Option Int)
    (hmono : c.lastUpdatedAt ≤ now) :
    c.lastUpdatedAt ≤ (increment c now).1.lastUpdatedAt ∧
    c.lastUpdatedAt ≤ (getCount c now d).1.lastUpdatedAt ∧
    (increment c now).1.lastUpdatedAt = now ∧
    (getCount c now d).1.lastUpdatedAt = now := by
  rw [increment_lastUpdatedAt, getCount_lastUpdatedAt]
  exact ⟨hmono, hmono, rfl, rfl⟩

/-- Witness for the amended C3 at a concrete state and a clock that moved
forward. -/
theorem C3_lastUpdatedAt_monotone_witness :
    (increment ⟨2, [0, 0], 3⟩ 5).1.lastUpdatedAt = 5 :=
  (C3_lastUpdatedAt_monotone ⟨2, [0, 0], 3⟩ 5 none (by decide)).2.2.1

/-- Claim C4: when the current bucket after buffer-advance holds v, increment
returns false and leaves the bucket at 4294967295 if v = 4294967295, and
returns true with the bucket at v + 1 if v < 4294967295. -/
theorem C4_increment_overflow (c : Counter) (now : Nat)
    (hm : 0 < c.maxDuration) (hlen : c.data.length = c.maxDuration) :
    ((getIndexStep c now).1.data.getD (now % c.maxDuration) 0 = UINT32_MOD - 1 →
      (increment c now).2 = false ∧
      (increment c now).1.data.getD (now % c.maxDuration) 0 = UINT32_MOD - 1) ∧
    ((getIndexStep c now).1.data.getD (now % c.maxDuration) 0 < UINT32_MOD - 1 →
      (increment c now).2 = true ∧
      (increment c now).1.data.getD (now % c.maxDuration) 0 =
        (getIndexStep c now).1.data.getD (now % c.maxDuration) 0 + 1) := by
  have hlen1 : (getIndexStep c now).1.data.length = c.maxDuration := by
    rw [getIndexStep_length, hlen]
  have hidx : now % c.maxDuration < c.maxDuration := Nat.mod_lt _ hm
  constructor
  · intro hv
    have hcond : ((getIndexStep c now).1.data.getD (getIndexStep c now).2 0 + 1) %
        UINT32_MOD = 0 := by
      rw [getIndexStep_index, hv]
      have : UINT32_MOD - 1 + 1 = UINT32_MOD := by
        have : 0 < UINT32_MOD := by decide
        omega
      rw [this, Nat.mod_self]
    simp only [increment]
    rw [if_pos hcond]
    refine ⟨rfl, ?_⟩
    rw [List.set_set, getD_set, getIndexStep_index]
    rw [if_pos ⟨rfl, by omega⟩, hv]
  · intro hv
    have hsmall : (getIndexStep c now).1.data.getD (getIndexStep c now).2 0 + 1 <
        UINT32_MOD := by
      rw [getIndexStep_index]
      omega
    have hmod : ((getIndexStep c now).1.data.getD (getIndexStep c now).2 0 + 1) %
        UINT32_MOD = (getIndexStep c now).1.data.getD (getIndexStep c now).2 0 + 1 :=
      Nat.mod_eq_of_lt hsmall
    have hcond : ¬(((getIndexStep c now).1.data.getD (getIndexStep c now).2 0 + 1) %
        UINT32_MOD = 0) := by
      rw [hmod]
      omega
    simp only [increment]
    rw [if_neg hcond]
    refine ⟨rfl, ?_⟩
    rw [hmod, getD_set, getIndexStep_index]
    rw [if_pos ⟨rfl, by omega⟩]

/-- Witness for C4: a bucket holding 4294967294 is bumped to 4294967295 with a
true result. -/
theorem C4_increment_overflow_witness :
    (increment ⟨1, [4294967294], 0⟩ 0).2 = true ∧
    (increment ⟨1, [4294967294], 0⟩ 0).1.data.getD 0 0 =
      (getIndexStep ⟨1, [4294967294], 0⟩ 0).1.data.getD 0 0 + 1 :=
  (C4_increment_overflow ⟨1, [4294967294], 0⟩ 0 (by decide) (by decide)).2 (by decide)

/-- Claim C7: when increment fails due to per-bucket overflow, the resulting
state is exactly the state produced by the buffer-advance step — lastUpdatedAt
has advanced and lazily aged-out buckets are zeroed, but no bucket is
otherwise modified. -/
theorem C7_increment_failure_frame (c : Counter) (now : Nat)
    (hm : 0 < c.maxDuration) (hlen : c.data.length = c.maxDuration)
    (hfail : (increment c now).2 = false) :
    (increment c now).1 = (getIndexStep c now).1 := by
  simp only [increment] at hfail ⊢
  by_cases hcond : ((getIndexStep c now).1.data.getD (getIndexStep c now).2 0 + 1) %
      UINT32_MOD = 0
  · rw [if_pos hcond]
    rw [List.set_set, set_getD_self]
    rw [getIndexStep_length, hlen, getIndexStep_index]
    exact Nat.mod_lt _ hm
  · rw [if_neg hcond] at hfail
    exact Bool.noConfusion hfail

/-- Witness for C7: an increment that overflows at 4294967295 leaves the state
identical to the advanced-but-unmodified state. -/
theorem C7_increment_failure_frame_witness :
    (increment ⟨1, [4294967295], 0⟩ 0).1 = (getIndexStep ⟨1, [4294967295], 0⟩ 0).1 :=
  C7_increment_failure_frame ⟨1, [4294967295], 0⟩ 0 (by decide) (by decide) (by decide)

/-- Claim C8: if every bucket holds 1 and at least maxDuration seconds elapse
with no operation, the next increment leaves exactly one bucket equal to 1
(the newly written one at index now mod maxDuration) and all others 0. -/
theorem C8_inactivity_reset (c : Counter) (now : Nat)
    (hm : 0 < c.maxDuration) (hlen : c.data.length = c.maxDuration)
    (hall : ∀ i, i < c.maxDuration → c.data.getD i 0 = 1)
    (hinact : c.lastUpdatedAt + c.maxDuration ≤ now) :
    (∀ i, i < c.maxDuration →
      (increment c now).1.data.getD i 0 =
        if i = now % c.maxDuration then 1 else 0) ∧
    (increment c now).2 = true := by
  have hmono : c.lastUpdatedAt ≤ now := by omega
  have hidxm : now % c.maxDuration < c.maxDuration := Nat.mod_lt _ hm
  have hzero : ∀ i, i < c.maxDuration → (getIndexStep c now).1.data.getD i 0 = 0 := by
    intro i hi
    rw [getIndexStep_getD c now hm hlen hmono i hi]
    have hed : c.maxDuration ≤ now - c.lastUpdatedAt := by omega
    by_cases h1 : now - c.lastUpdatedAt = 1
    · have hm1 : c.maxDuration = 1 := by omega
      have hie : i = now % c.maxDuration := by
        rw [hm1, Nat.mod_one]
        omega
      rw [if_neg (by omega : ¬(now - c.lastUpdatedAt = 0)), if_pos h1, if_pos hie]
    · rw [if_neg (by omega : ¬(now - c.lastUpdatedAt = 0)), if_neg h1, if_pos hed]
  have hlen1 : (getIndexStep c now).1.data.length = c.maxDuration := by
    rw [getIndexStep_length, hlen]
  have hlc : (getIndexStep c now).1.data.getD (getIndexStep c now).2 0 = 0 := by
    rw [getIndexStep_index]
    exact hzero _ hidxm
  have hbump : ((getIndexStep c now).1.data.getD (getIndexStep c now).2 0 + 1) %
      UINT32_MOD = 1 := by
    rw [hlc]
    exact Nat.mod_eq_of_lt (by decide)
  constructor
  · intro i hi
    simp only [increment]
    rw [hbump, if_neg one_ne_zero, getD_set, getIndexStep_index]
    by_cases hie : i = now % c.maxDuration
    · rw [if_pos ⟨hie, by omega⟩, if_pos hie]
    · rw [if_neg (fun h => hie h.1), if_neg hie]
      exact hzero i hi
  · simp only [increment]
    rw [hbump, if_neg one_ne_zero]

/-- Witness for C8: both buckets preset to 1, inactivity of 5 seconds with
maxDuration 2; the next increment leaves bucket 1 (= 5 mod 2) at 1 and bucket
0 at 0, returning true. -/
theorem C8_inactivity_reset_witness :
    (increment ⟨2, [1, 1], 0⟩ 5).1.data.getD 1 0 = 1 ∧
    (increment ⟨2, [1, 1], 0⟩ 5).1.data.getD 0 0 = 0 ∧
    (increment ⟨2, [1, 1], 0⟩ 5).2 = true := by
  have h := C8_inactivity_reset ⟨2, [1, 1], 0⟩ 5 (by decide) (by decide)
    (by
      intro i hi
      simp only at hi
      have h2 : i = 0 ∨ i = 1 := by omega
      rcases h2 with h2 | h2 <;> subst h2 <;> decide)
    (by decide)
  refine ⟨?_, ?_, h.2⟩
  · rw [h.1 1 (by decide)]
    decide
  · rw [h.1 0 (by decide)]
    decide

/-- Claim C5: for an integer duration d with 1 <= d <= maxDuration, getCount
returns the sum of the d most recent circular buckets of the advanced buffer
when that sum is at most 2^53 - 1, and the sentinel -1 otherwise. -/
theorem C5_getCount_window (c : Counter) (now : Nat) (d : Int)
    (hm : 0 < c.maxDuration) (hlen : c.data.length = c.maxDuration)
    (hd1 : 1 ≤ d) (hd2 : d ≤ (c.maxDuration : Int)) :
    (getCount c now (some d)).2 =
      if specWindowSum (getIndexStep c now).1.data c.maxDuration
          (now % c.maxDuration) d.toNat ≤ MAX_SAFE_INTEGER
      then (specWindowSum (getIndexStep c now).1.data c.maxDuration
          (now % c.maxDuration) d.toNat : Int)
      else -1 := by
  have hclamp : clampDuration c.maxDuration (some d) = d :=
    clampDuration_eq_self c.maxDuration d hd1 hd2
  simp only [getCount, getIndexStep_maxDuration, getIndexStep_index]
  rw [hclamp]
  rw [getCountLoop_eq_specWindowSum (getIndexStep c now).1.data c.maxDuration
    (now % c.maxDuration) (Nat.mod_lt _ hm) d.toNat (by omega)]
  split_ifs <;> rfl

/-- Witness for C5: maxDuration 2, buckets [3,4], same-second query with
duration 2 sums both buckets to 7. -/
theorem C5_getCount_window_witness :
    (getCount ⟨2, [3, 4], 7⟩ 7 (some 2)).2 = 7 := by
  have h := C5_getCount_window ⟨2, [3, 4], 7⟩ 7 2 (by decide) (by decide)
    (by decide) (by decide)
  rw [h]
  decide

/-- Claim C6: getCount treats an absent (or not-a-number) duration as
maxDuration, clamps durations above maxDuration down to maxDuration, and
clamps durations below 1 up to 1, so the results coincide with the clamped
calls. -/
theorem C6_getCount_clamping (c : Counter) (now : Nat) (d : Int)
    (hm : 0 < c.maxDuration) :
    getCount c now none = getCount c now (some (c.maxDuration : Int)) ∧
    ((c.maxDuration : Int) < d →
      getCount c now (some d) = getCount c now (some (c.maxDuration : Int))) ∧
    (d < 1 → getCount c now (some d) = getCount c now (some 1)) := by
  have hself : clampDuration c.maxDuration (some (c.maxDuration : Int)) =
      (c.maxDuration : Int) :=
    clampDuration_eq_self c.maxDuration (c.maxDuration : Int) (by omega) le_rfl
  have hone : clampDuration c.maxDuration (some 1) = 1 :=
    clampDuration_eq_self c.maxDuration 1 le_rfl (by omega)
  refine ⟨?_, ?_, ?_⟩
  · apply getCount_clamp_congr
    rw [hself]
    rfl
  · intro hgt
    apply getCount_clamp_congr
    rw [hself]
    simp only [clampDuration]
    rw [if_pos hgt]
  · intro hlt
    apply getCount_clamp_congr
    rw [hone]
    simp only [clampDuration]
    rw [if_neg (by omega : ¬((c.maxDuration : Int) < d)), if_pos hlt]

/-- Witness for C6: on a concrete two-bucket counter, getCount 5 coincides
with getCount 2 (= maxDuration). -/
theorem C6_getCount_clamping_witness :
    getCount ⟨2, [0, 0], 0⟩ 0 (some 5) = getCount ⟨2, [0, 0], 0⟩ 0 (some 2) :=
  (C6_getCount_clamping ⟨2, [0, 0], 0⟩ 0 5 (by decide)).2.1 (by decide)

/-- Claim C9: when maxDuration <= 2097152, the aggregate sum in getCount stays
at or below Number.MAX_SAFE_INTEGER for every integer duration, the -1
sentinel branch is unreachable, and getCount returns the true non-negative
window sum. -/
theorem C9_no_aggregate_overflow (c : Counter) (now : Nat) (d : Int)
    (hm : 0 < c.maxDuration) (hsmall : c.maxDuration ≤ 2097152)
    (hlen : c.data.length = c.maxDuration)
    (hwf : ∀ i, i < c.data.length → c.data.getD i 0 < UINT32_MOD) :
    (getCount c now (some d)).2 ≠ -1 ∧
    0 ≤ (getCount c now (some d)).2 ∧
    (getCount c now (some d)).2 =
      (specWindowSum (getIndexStep c now).1.data c.maxDuration (now % c.maxDuration)
        (clampDuration c.maxDuration (some d)).toNat : Int) := by
  have hidx : now % c.maxDuration < c.maxDuration := Nat.mod_lt _ hm
  have hwf1 : ∀ i, i < (getIndexStep c now).1.data.length →
      (getIndexStep c now).1.data.getD i 0 < UINT32_MOD := by
    intro i hi
    rcases getIndexStep_getD_cases c now i with h | h
    · rw [h]
      decide
    · rw [h]
      by_cases hic : i < c.data.length
      · exact hwf i hic
      · rw [List.getD_eq_default _ _ (le_of_not_lt hic)]
        decide
  have hdb := clampDuration_bounds c.maxDuration hm (some d)
  have hloop := getCountLoop_le (getIndexStep c now).1.data c.maxDuration
    (now % c.maxDuration) hwf1 (clampDuration c.maxDuration (some d)).toNat
  have hbound : getCountLoop (getIndexStep c now).1.data c.maxDuration
      (now % c.maxDuration) (clampDuration c.maxDuration (some d)).toNat ≤
      MAX_SAFE_INTEGER := by
    have hstep2 : (clampDuration c.maxDuration (some d)).toNat * (UINT32_MOD - 1) ≤
        2097152 * (UINT32_MOD - 1) := Nat.mul_le_mul_right _ (by omega)
    have hstep3 : (2097152 : Nat) * (UINT32_MOD - 1) ≤ MAX_SAFE_INTEGER := by decide
    exact le_trans hloop (le_trans hstep2 hstep3)
  have heq : (getCount c now (some d)).2 =
      (getCountLoop (getIndexStep c now).1.data c.maxDuration (now % c.maxDuration)
        (clampDuration c.maxDuration (some d)).toNat : Int) := by
    simp only [getCount, getIndexStep_maxDuration, getIndexStep_index]
    rw [if_pos hbound]
  rw [heq, getCountLoop_eq_specWindowSum (getIndexStep c now).1.data c.maxDuration
    (now % c.maxDuration) hidx (clampDuration c.maxDuration (some d)).toNat (by omega)]
  refine ⟨by omega, by omega, rfl⟩

/-- Witness for C9 on a small counter: the result is not the sentinel. -/
theorem C9_no_aggregate_overflow_witness :
    (getCount ⟨2, [3, 4], 7⟩ 7 (some 5)).2 ≠ -1 :=
  (C9_no_aggregate_overflow ⟨2, [3, 4], 7⟩ 7 5 (by decide) (by decide) (by decide)
    (by
      intro i hi
      simp only [List.length_cons, List.length_nil] at hi
      have h2 : i = 0 ∨ i = 1 := by omega
      rcases h2 with h2 | h2 <;> subst h2 <;> decide)).1

/-- Claim C10: at a fixed state and clock reading the window sum is monotone
in the duration: for 1 <= d1 <= d2 <= maxDuration, when neither call returns
the -1 sentinel, getCount d1 <= getCount d2. -/
theorem C10_getCount_monotone (c : Counter) (now : Nat) (d1 d2 : Int)
    (hd1 : 1 ≤ d1) (hd12 : d1 ≤ d2) (hd2 : d2 ≤ (c.maxDuration : Int))
    (hn1 : (getCount c now (some d1)).2 ≠ -1)
    (hn2 : (getCount c now (some d2)).2 ≠ -1) :
    (getCount c now (some d1)).2 ≤ (getCount c now (some d2)).2 := by
  have hm : 0 < c.maxDuration := by omega
  have hc1 : clampDuration c.maxDuration (some d1) = d1 :=
    clampDuration_eq_self c.maxDuration d1 hd1 (by omega)
  have hc2 : clampDuration c.maxDuration (some d2) = d2 :=
    clampDuration_eq_self c.maxDuration d2 (by omega) hd2
  have hLL := getCountLoop_mono (getIndexStep c now).1.data c.maxDuration
    (getIndexStep c now).2 d1.toNat d2.toNat (by omega)
  simp only [getCount, getIndexStep_maxDuration] at hn2 ⊢
  rw [hc1, hc2] at *
  by_cases hb2 : getCountLoop (getIndexStep c now).1.data c.maxDuration
      (getIndexStep c now).2 d2.toNat ≤ MAX_SAFE_INTEGER
  · have hb1 : getCountLoop (getIndexStep c now).1.data c.maxDuration
        (getIndexStep c now).2 d1.toNat ≤ MAX_SAFE_INTEGER := le_trans hLL hb2
    rw [if_pos hb1, if_pos hb2]
    show ((getCountLoop (getIndexStep c now).1.data c.maxDuration
        (getIndexStep c now).2 d1.toNat : Nat) : Int) ≤
      ((getCountLoop (getIndexStep c now).1.data c.maxDuration
        (getIndexStep c now).2 d2.toNat : Nat) : Int)
    exact_mod_cast hLL
  · rw [if_neg hb2] at hn2
    exact absurd rfl hn2

/-- Witness for C10 on a concrete two-bucket counter: the one-second window
count is at most the two-second window count. -/
theorem C10_getCount_monotone_witness :
    (getCount ⟨2, [1, 2], 0⟩ 0 (some 1)).2 ≤ (getCount ⟨2, [1, 2], 0⟩ 0 (some 2)).2 :=
  C10_getCount_monotone ⟨2, [1, 2], 0⟩ 0 1 2 (by decide) (by decide) (by decide)
    (by decide) (by decide)
